import Mathlib

/-!
# A shallow embedding of the `gower` micro web framework

This file embeds the request-dispatch path of `gower.go` and the statistics
counter of `stat.go` in Lean, and proves properties of the embedding.

Modelling conventions:

* Go's `regexp` library is modelled by a small backtracking engine
  (`Regex`, `matchPre`, `Regexp.findStringSubmatch`) that covers exactly the
  fragment of regular-expression syntax exercised by the framework's route
  patterns: literal characters, character classes `[a-b...]`, the one-or-more
  operator `+` on a literal or class, capturing groups `(...)`, and the `^`/`$`
  anchors that `NewRoute` adds around every pattern.  Syntax outside this
  fragment is rejected by the model's compiler `regexpCompile`; all patterns
  appearing in the development are inside the fragment.
* `http.ResponseWriter` is modelled as a list of write events (`Response`),
  `http.Error` as the event sequence it emits.
* A handler is a function from the per-request `Context` and the response
  written so far to either a normal result or a panic carrying the error value
  and the response written before the panic.
* `log.Fatal` at route-registration time (bad pattern) is modelled by
  `NewRoute` returning `none`: the process aborts and no route is produced.
* Logging (`log.Println`, `logRequest`) has no observable effect on the
  response or the statistics and is omitted.
* `time.Duration` values are opaque `Nat`s; `Stat.Increment` ignores its
  duration argument exactly as the Go code does.
-/

/-- Regular-expression ASTs: the fragment of Go `regexp` syntax used by the
framework's route patterns (see module docstring). -/
inductive Regex where
  | emp : Regex
  | lit : Char → Regex
  | cls : (Char → Bool) → Regex
  | plus : (Char → Bool) → Regex
  | seq : Regex → Regex → Regex
  | group : Regex → Regex

/-- Number of capturing groups of a pattern (parenthesis pairs, in order of
opening parentheses). -/
def Regex.countGroups : Regex → Nat
  | .emp => 0
  | .lit _ => 0
  | .cls _ => 0
  | .plus _ => 0
  | .seq r1 r2 => r1.countGroups + r2.countGroups
  | .group r => r.countGroups + 1

/-- All ways for a greedy `+` over the character predicate `f` to consume a
non-empty prefix of the input: pairs `(consumed, rest)`, longest consumed
prefix first (Go's backtracking preference for a greedy repetition). -/
def plusSplits (f : Char → Bool) : List Char → List (List Char × List Char)
  | [] => []
  | c :: cs =>
    if f c then
      ((plusSplits f cs).map fun p => (c :: p.1, p.2)) ++ [([c], cs)]
    else []

/-- Backtracking matcher: all ways for `r` to match a prefix of the input, in
Go's (Perl-like, greedy-first) backtracking order.  Each result is
`(consumed, captures, rest)`: the consumed prefix, the strings captured by the
groups of `r` in opening-parenthesis order, and the remaining input. -/
def matchPre : Regex → List Char → List (List Char × List String × List Char)
  | .emp, cs => [([], [], cs)]
  | .lit _, [] => []
  | .lit c, x :: cs => if x = c then [([x], [], cs)] else []
  | .cls _, [] => []
  | .cls f, x :: cs => if f x then [([x], [], cs)] else []
  | .plus f, cs => (plusSplits f cs).map fun p => (p.1, [], p.2)
  | .seq r1 r2, cs =>
    (matchPre r1 cs).flatMap fun m1 =>
      (matchPre r2 m1.2.2).map fun m2 => (m1.1 ++ m2.1, m1.2.1 ++ m2.2.1, m2.2.2)
  | .group r, cs =>
    (matchPre r cs).map fun m => (m.1, String.mk m.1 :: m.2.1, m.2.2)

/-- First `some` produced by `f` along a list. -/
def firstSome (f : α → Option β) : List α → Option β
  | [] => none
  | a :: rest =>
    match f a with
    | some b => some b
    | none => firstSome f rest

/-- A compiled regular expression: the pattern body together with the `^` / `$`
anchors.  `NewRoute` always compiles `"^" ++ pattern ++ "$"`, so the routes'
regexps have both anchors set. -/
structure Regexp where
  anchoredStart : Bool
  anchoredEnd : Bool
  ast : Regex

/-- Go's `(*Regexp).FindStringSubmatch`: the leftmost match (earliest starting
position, then backtracking preference); entry 0 is the whole matched text,
followed by the capturing groups.  `none` models Go's `nil` result.  A `^`
anchor restricts the search to position 0, a `$` anchor keeps only matches
consuming the whole remaining input. -/
def Regexp.findStringSubmatch (re : Regexp) (s : String) : Option (List String) :=
  let starts := if re.anchoredStart then [s.toList] else s.toList.tails
  firstSome
    (fun cs =>
      let results := matchPre re.ast cs
      let results := if re.anchoredEnd then results.filter (fun m => m.2.2.isEmpty) else results
      results.head?.map fun m => String.mk m.1 :: m.2.1)
    starts

/-- Parse the items of a character class after `[`, up to the closing `]`,
producing the class predicate.  Negated classes, escapes and other exotic
class syntax are outside the modelled fragment and rejected. -/
def parseClassItems : List Char → Option ((Char → Bool) × List Char)
  | [] => none
  | ']' :: rest => some ((fun _ => false), rest)
  | '^' :: _ => none
  | '\\' :: _ => none
  | _a :: '-' :: ']' :: _ => none
  | a :: '-' :: b :: rest =>
    (parseClassItems rest).map fun fr =>
      ((fun x => (decide (a ≤ x) && decide (x ≤ b)) || fr.1 x), fr.2)
  | a :: rest =>
    (parseClassItems rest).map fun fr => ((fun x => x == a || fr.1 x), fr.2)

/-- Characters that are regexp metacharacters (or outside the modelled
fragment) and hence not plain literals. -/
def isMeta (c : Char) : Bool :=
  ['^', '$', '(', ')', '[', ']', '+', '*', '?', '.', '|', '{', '}', '\\'].contains c

/-- Parse a sequence of atoms (literal, class, group, each optionally followed
by `+` where the fragment supports it), stopping at `)` or the end of input.
The fuel argument only serves termination; `length + 1` fuel suffices since
every step consumes input. -/
def parseSeq : Nat → List Char → Option (Regex × List Char)
  | 0, _ => none
  | _ + 1, [] => some (.emp, [])
  | _ + 1, ')' :: rest => some (.emp, ')' :: rest)
  | fuel + 1, '(' :: rest =>
    match parseSeq fuel rest with
    | some (inner, ')' :: rest1) =>
      match rest1 with
      | '+' :: _ => none
      | _ => (parseSeq fuel rest1).map fun tr => (.seq (.group inner) tr.1, tr.2)
    | _ => none
  | fuel + 1, '[' :: rest =>
    match parseClassItems rest with
    | none => none
    | some (f, rest1) =>
      match rest1 with
      | '+' :: rest2 => (parseSeq fuel rest2).map fun tr => (.seq (.plus f) tr.1, tr.2)
      | _ => (parseSeq fuel rest1).map fun tr => (.seq (.cls f) tr.1, tr.2)
  | fuel + 1, c :: rest =>
    if isMeta c then none
    else
      match rest with
      | '+' :: rest2 =>
        (parseSeq fuel rest2).map fun tr => (.seq (.plus (fun x => x == c)) tr.1, tr.2)
      | _ => (parseSeq fuel rest).map fun tr => (.seq (.lit c) tr.1, tr.2)

/-- Go's `regexp.Compile` on the modelled fragment: strip a leading `^` and a
trailing `$` into the anchor flags, parse the body; `none` models a
compilation error. -/
def regexpCompile (s : String) : Option Regexp :=
  let cs := s.toList
  let p1 : Bool × List Char :=
    match cs with
    | '^' :: rest => (true, rest)
    | _ => (false, cs)
  let p2 : Bool × List Char :=
    match p1.2.reverse with
    | '$' :: revRest => (true, revRest.reverse)
    | _ => (false, p1.2)
  match parseSeq (p2.2.length + 1) p2.2 with
  | some (r, []) => some ⟨p1.1, p2.1, r⟩
  | _ => none

/-- A write event on the `http.ResponseWriter`: an explicit status header
(`WriteHeader`) or a chunk of body text. -/
inductive RespEvent where
  | header : Nat → RespEvent
  | body : String → RespEvent
deriving DecidableEq

/-- The response written so far, as the sequence of write events. -/
abbrev Response := List RespEvent

/-- The status code the client actually receives: the first explicitly written
header wins (Go ignores superfluous `WriteHeader` calls); with no explicit
header the implicit status is 200. -/
def statusOf : Response → Nat
  | [] => 200
  | RespEvent.header c :: _ => c
  | RespEvent.body _ :: rest => statusOf rest

/-- Go's `http.Error(w, msg, code)`: writes the status header and the message
followed by a newline. -/
def httpError (w : Response) (msg : String) (code : Nat) : Response :=
  w ++ [RespEvent.header code, RespEvent.body (msg ++ "\n")]

/-- Model of `Context` from gower.go: the `Res` writer is threaded separately as a
`Response` value; the request (`Req`) is represented by its method and URL
path; `Matches` holds the regex submatches. -/
structure Context where
  Method : String
  Path : String
  Matches : List String

/-- Outcome of running a handler on a context and the response written so far:
either the response after a normal return, or a panic carrying the panic value
and the response written before the panic. -/
inductive HandlerResult where
  | ok : Response → HandlerResult
  | panicked : String → Response → HandlerResult

/-- The handler type `func(*Context)`, with its response-writing effect made
explicit. -/
abbrev Handler := Context → Response → HandlerResult

/-- Model of `Route` from gower.go: compiled url pattern, request method, handler. -/
structure Route where
  re : Regexp
  method : String
  handler : Handler

/-- Model of `NewRoute` from gower.go: compile `"^" + pattern + "$"`; a pattern that
fails to compile makes `log.Fatal` abort the process, modelled by `none` (no
route is ever produced). -/
def NewRoute (pattern : String) (method : String) (handler : Handler) : Option Route :=
  match regexpCompile ("^" ++ pattern ++ "$") with
  | none => none
  | some re => some ⟨re, method, handler⟩

/-- Model of `Stat` from stat.go.  The Go counters are `int`s that are only ever
incremented, modelled as `Nat`; the `map[string]int` with its zero default is
modelled as a total function `String → Nat`; the mutex has no observable
content in this sequential embedding; `ServerStartedAt` is an opaque
timestamp. -/
structure Stat where
  LastMinReqs : Nat
  LastHourReqs : Nat
  LastDayReqs : Nat
  LastWeekReqs : Nat
  TotalReqs : Nat
  Reqs : String → Nat
  ServerStartedAt : Nat

/-- Model of `NewStat` from stat.go: all counters zero, empty request map. -/
def NewStat (now : Nat) : Stat :=
  { LastMinReqs := 0
    LastHourReqs := 0
    LastDayReqs := 0
    LastWeekReqs := 0
    TotalReqs := 0
    Reqs := fun _ => 0
    ServerStartedAt := now }

/-- Model of `(*Stat).Increment` from stat.go: under the lock, add one to `TotalReqs`
and one to the bucket keyed by `strconv.Itoa(statusCode)`; the duration
argument is ignored. -/
def Stat.Increment (s : Stat) (statusCode : Nat) (_duration : Nat) : Stat :=
  { s with
    TotalReqs := s.TotalReqs + 1
    Reqs := fun k => if k = toString statusCode then s.Reqs k + 1 else s.Reqs k }

/-- The route-scanning loop of `process` (gower.go lines 241-253), with the
`foundPattern` / `foundMethod` flags threaded explicitly.  On a pattern match
`foundPattern` becomes true and `foundMethod` is (re)assigned from the method
comparison; the loop breaks — returning the route and its matches — only when
both hold, and otherwise continues with the updated flags. -/
def scanRoutes : List Route → String → String → Bool → Bool →
    Bool × Bool × Option (Route × List String)
  | [], _, _, foundPattern, foundMethod => (foundPattern, foundMethod, none)
  | route :: rest, path, method, foundPattern, foundMethod =>
    match route.re.findStringSubmatch path with
    | some ms =>
      let foundPattern := true
      let foundMethod := route.method == method
      if foundPattern && foundMethod then (foundPattern, foundMethod, some (route, ms))
      else scanRoutes rest path method foundPattern foundMethod
    | none => scanRoutes rest path method foundPattern foundMethod

/-- Model of `process` from gower.go (lines 231-280).  A panic inside the handler
unwinds out of `process` — skipping the final `ServerStat.Increment` — and is
modelled by the `Except.error` case carrying the panic value and the response
written so far.  The `none` arm under `foundPattern && foundMethod` is
unreachable (the scan returns a route whenever both flags end up true); Go
would dereference a nil `routeToExecute` there, a panic. -/
def process (routes : List Route) (method path : String) (stat : Stat) (w : Response)
    (d : Nat) : Except (String × Response) (Stat × Response) :=
  match scanRoutes routes path method false false with
  | (foundPattern, foundMethod, hit) =>
    let statusCode : Nat := if !foundPattern then 404 else if !foundMethod then 405 else 200
    let w1 : Response :=
      if !foundPattern then httpError w "Not Found" 404
      else if !foundMethod then httpError w "Method not allowed" 405
      else w
    if foundPattern && foundMethod then
      match hit with
      | some (route, foundMatches) =>
        match route.handler { Method := method, Path := path, Matches := foundMatches } w1 with
        | .ok w2 => .ok (stat.Increment statusCode d, w2)
        | .panicked e w2 => .error (e, w2)
      | none => .error ("nil pointer dereference", w1)
    else
      .ok (stat.Increment statusCode d, w1)

/-- Model of `Process` from gower.go (lines 214-228): run `process` and recover from
any panic, in which case the client gets `http.Error(w, "Server Error", 500)`
and the request is counted as a 500. -/
def Process (routes : List Route) (method path : String) (stat : Stat) (w : Response)
    (d : Nat) : Stat × Response :=
  match process routes method path stat w d with
  | .ok (stat1, w1) => (stat1, w1)
  | .error (_e, w1) => (stat.Increment 500 d, httpError w1 "Server Error" 500)

/-- A compiled template (`pongo2.Template`): executing it on a data mapping
yields the output or an execution error (which the Go code turns into a
panic). -/
abbrev Template (Data : Type) := Data → Except String String

/-- The global `templateCache` map, template path → compiled template. -/
abbrev TemplateCache (Data : Type) := List (String × Template Data)

/-- Model of `renderTemplate` from gower.go (lines 91-124).  `fromFile` models
`pongo2.FromFile`, reading and compiling a template from storage.  The result
is `(output, cache, loads)`: `output` is the rendered text or the panic value
(a compile or execution error panics in Go); `cache` is the template cache
after the call — Go inserts into the cache before executing, so even a failed
execution leaves the compiled template cached; `loads` counts the `fromFile`
calls the invocation made (0 or 1), the observable read-from-storage
effect. -/
def renderTemplate {Data : Type} (debug : Bool)
    (fromFile : String → Except String (Template Data))
    (cache : TemplateCache Data) (filepath : String) (data : Data) :
    Except String String × TemplateCache Data × Nat :=
  if debug then
    match fromFile filepath with
    | .error err => (.error err, cache, 1)
    | .ok newTemplate => (newTemplate data, cache, 1)
  else
    match List.lookup filepath cache with
    | some cached => (cached data, cache, 0)
    | none =>
      match fromFile filepath with
      | .error err => (.error err, cache, 1)
      | .ok newTemplate => (newTemplate data, (filepath, newTemplate) :: cache, 1)

/-! ## Concrete handlers and routes used in witnesses and counterexamples -/

/-- A handler that writes a plain body chunk (like `Context.Write`). -/
def writeBody (s : String) : Handler := fun _ w => .ok (w ++ [RespEvent.body s])

/-- A handler that explicitly writes a status header and then a body. -/
def writeStatusBody (code : Nat) (s : String) : Handler :=
  fun _ w => .ok (w ++ [RespEvent.header code, RespEvent.body s])

/-- The `sayHi` handler of the README example: writes the capture group at
index 1 of `Matches`. -/
def sayHi : Handler := fun c w => .ok (w ++ [RespEvent.body (c.Matches.getD 1 "")])

/-- The concrete data-map type used to instantiate templates in witnesses. -/
abbrev TData := List (String × String)

/-- A storage on which every template load fails, as when the template file is
missing. -/
def badStorage : String → Except String (Template TData) :=
  fun p => .error ("[Error (where: fromfile)] open " ++ p ++ ": no such file")

/-- A concrete compiled template used as a witness. -/
def tplHi : Template TData := fun _ => .ok "<h1>hi</h1>"

/-- A route matches both the path pattern and the request method. -/
def bothMatch (r : Route) (method path : String) : Prop :=
  (r.re.findStringSubmatch path).isSome = true ∧ r.method = method

/-- Whether some route's pattern matches the path. -/
def anyPattern (routes : List Route) (path : String) : Bool :=
  routes.any fun r => (r.re.findStringSubmatch path).isSome

/-- Handler built on `Context.WriteTemplate` specialised to `badStorage`: the render fails to
compile, so the handler panics mid-request. -/
def writeTemplateBoom : Handler := fun _ w =>
  match renderTemplate false badStorage [] ("www/templates/say-hi.html") ([] : TData) with
  | (.ok out, _, _) => .ok (w ++ [RespEvent.body out])
  | (.error e, _, _) => .panicked e w

def routeXGetA : Route := Option.get (NewRoute "/x" "GET" (writeBody "A")) (by decide)

def routeXPostB : Route := Option.get (NewRoute "/x" "POST" (writeBody "B")) (by decide)

def routeXGetB : Route := Option.get (NewRoute "/x" "GET" (writeBody "B")) (by decide)

def routeHello : Route :=
  Option.get (NewRoute "/hello" "GET" (writeBody "Hello World")) (by decide)

def routeTea : Route :=
  Option.get (NewRoute "/tea" "GET" (writeStatusBody 418 "tea")) (by decide)

def routeSt : Route :=
  Option.get (NewRoute "/st" "GET" (writeStatusBody 503 "oops")) (by decide)

def routeBoom : Route := Option.get (NewRoute "/boom" "GET" writeTemplateBoom) (by decide)

def routeSayHi : Route :=
  Option.get (NewRoute "/say-hi/([a-zA-Z]+)" "GET" sayHi) (by decide)

/-! ## Lemmas about the matcher -/

theorem plusSplits_append (f : Char → Bool) :
    ∀ cs p, p ∈ plusSplits f cs → p.1 ++ p.2 = cs := by
  intro cs
  induction cs with
  | nil => intro p hp; simp [plusSplits] at hp
  | cons c cs ih =>
    intro p hp
    simp only [plusSplits] at hp
    by_cases hf : f c
    · simp only [hf, if_true, List.mem_append, List.mem_map, List.mem_singleton] at hp
      rcases hp with ⟨q, hq, rfl⟩ | rfl
      · simpa using ih q hq
      · rfl
    · simp [hf] at hp

/-- Every result of `matchPre r cs` consumes a prefix of `cs` and captures one
string per group of `r`. -/
theorem matchPre_spec (r : Regex) :
    ∀ cs m, m ∈ matchPre r cs → m.1 ++ m.2.2 = cs ∧ m.2.1.length = r.countGroups := by
  induction r with
  | emp =>
    intro cs m hm
    simp only [matchPre, List.mem_singleton] at hm
    subst hm; simp [Regex.countGroups]
  | lit c =>
    intro cs m hm
    cases cs with
    | nil => simp [matchPre] at hm
    | cons x cs =>
      simp only [matchPre] at hm
      by_cases hx : x = c
      · simp only [hx, if_true, List.mem_singleton] at hm
        subst hm; simp [Regex.countGroups, hx]
      · simp [hx] at hm
  | cls f =>
    intro cs m hm
    cases cs with
    | nil => simp [matchPre] at hm
    | cons x cs =>
      simp only [matchPre] at hm
      by_cases hx : f x
      · simp only [hx, if_true, List.mem_singleton] at hm
        subst hm; simp [Regex.countGroups]
      · simp [hx] at hm
  | plus f =>
    intro cs m hm
    simp only [matchPre, List.mem_map] at hm
    obtain ⟨p, hp, rfl⟩ := hm
    exact ⟨plusSplits_append f cs p hp, by simp [Regex.countGroups]⟩
  | seq r1 r2 ih1 ih2 =>
    intro cs m hm
    simp only [matchPre, List.mem_flatMap, List.mem_map] at hm
    obtain ⟨m1, hm1, m2, hm2, rfl⟩ := hm
    obtain ⟨ha1, hl1⟩ := ih1 cs m1 hm1
    obtain ⟨ha2, hl2⟩ := ih2 m1.2.2 m2 hm2
    refine ⟨?_, by simp [Regex.countGroups, hl1, hl2]⟩
    simp only [List.append_assoc, ha2, ha1]
  | group r ih =>
    intro cs m hm
    simp only [matchPre, List.mem_map] at hm
    obtain ⟨m0, hm0, rfl⟩ := hm
    obtain ⟨ha, hl⟩ := ih cs m0 hm0
    exact ⟨ha, by simp [Regex.countGroups, hl]⟩

theorem mem_of_head?_eq_some {l : List α} {x : α} (h : l.head? = some x) : x ∈ l := by
  cases l with
  | nil => simp at h
  | cons a t =>
    simp only [List.head?_cons, Option.some.injEq] at h
    simp [h]

/-- A regexp anchored at both ends (as every route regexp is) matches a path
only as a whole: entry 0 of a successful `FindStringSubmatch` is the entire
path, followed by exactly one entry per capturing group. -/
theorem findStringSubmatch_anchored (re : Regexp) (hs : re.anchoredStart = true)
    (he : re.anchoredEnd = true) (s : String) (ms : List String)
    (h : re.findStringSubmatch s = some ms) :
    ms.head? = some s ∧ ms.length = 1 + re.ast.countGroups := by
  unfold Regexp.findStringSubmatch at h
  rw [hs, he] at h
  simp only [if_true, firstSome] at h
  rcases hh : (List.filter (fun m => m.2.2.isEmpty) (matchPre re.ast s.toList)).head? with
      _ | m
  · rw [hh] at h; simp at h
  · rw [hh] at h
    simp only [Option.map_some'] at h
    have hmem := mem_of_head?_eq_some hh
    rw [List.mem_filter] at hmem
    obtain ⟨hmem, hemp⟩ := hmem
    obtain ⟨happ, hlen⟩ := matchPre_spec re.ast s.toList m hmem
    have hrest : m.2.2 = [] := by simpa [List.isEmpty_iff] using hemp
    rw [hrest, List.append_nil] at happ
    cases h
    constructor
    · simp only [List.head?_cons, Option.some.injEq]
      rw [happ]
      rfl
    · simp [hlen, Nat.add_comm]

theorem toList_anchor_wrap (p : String) :
    ("^" ++ p ++ "$").toList = '^' :: (p.toList ++ ['$']) := by
  show ("^" ++ p ++ "$").data = '^' :: (p.data ++ ['$'])
  rw [String.data_append, String.data_append]
  rfl

/-- Compiling an anchor-wrapped pattern always yields a regexp anchored at both ends. -/
theorem regexpCompile_anchored (p : String) (re : Regexp)
    (h : regexpCompile ("^" ++ p ++ "$") = some re) :
    re.anchoredStart = true ∧ re.anchoredEnd = true := by
  unfold regexpCompile at h
  rw [toList_anchor_wrap] at h
  simp only [List.reverse_append, List.reverse_cons, List.reverse_nil, List.nil_append,
    List.singleton_append, List.reverse_reverse] at h
  rcases hps : parseSeq (p.toList.length + 1) p.toList with _ | ⟨r, rest⟩
  · rw [hps] at h
    simp at h
  · rw [hps] at h
    cases rest with
    | nil =>
      simp only [Option.some.injEq] at h
      rw [← h]
      exact ⟨rfl, rfl⟩
    | cons c cs => simp at h

/-- Every route produced by `NewRoute` carries a both-ends-anchored regexp and
the given method and handler. -/
theorem NewRoute_fields (p m : String) (h : Handler) (r : Route)
    (hr : NewRoute p m h = some r) :
    r.re.anchoredStart = true ∧ r.re.anchoredEnd = true ∧ r.method = m ∧ r.handler = h := by
  unfold NewRoute at hr
  rcases hc : regexpCompile ("^" ++ p ++ "$") with _ | re
  · rw [hc] at hr; simp at hr
  · rw [hc] at hr
    simp only [Option.some.injEq] at hr
    obtain ⟨h1, h2⟩ := regexpCompile_anchored p re hc
    rw [← hr]
    exact ⟨h1, h2, rfl, rfl⟩

/-! ## Lemmas about the dispatch loop -/

/-- When no route matches both pattern and method, the scan finds no route to
execute; `foundPattern` records whether some pattern matched, and
`foundMethod` ends false as soon as some pattern matched (the last
pattern-matching route's method necessarily differs). -/
theorem scanRoutes_no_both (path method : String) :
    ∀ (routes : List Route) (fp fm : Bool),
      (∀ r ∈ routes, ¬ bothMatch r method path) →
      scanRoutes routes path method fp fm =
        (fp || anyPattern routes path,
         if anyPattern routes path then false else fm, none) := by
  intro routes
  induction routes with
  | nil => intro fp fm _; simp [scanRoutes, anyPattern]
  | cons r rest ih =>
    intro fp fm h
    have hrest : ∀ q ∈ rest, ¬ bothMatch q method path := fun q hq => h q (by simp [hq])
    rcases hf : r.re.findStringSubmatch path with _ | ms
    · simp only [scanRoutes, hf]
      rw [ih fp fm hrest]
      simp [anyPattern, hf]
    · have hne : r.method ≠ method := by
        intro he
        exact h r (by simp) ⟨by simp [hf], he⟩
      have hbeq : (r.method == method) = false := by
        simp [hne]
      simp only [scanRoutes, hf, hbeq, Bool.true_and, if_false, Bool.false_eq_true]
      rw [ih true false hrest]
      simp [anyPattern, hf]

/-- The scan returns the first route matching both pattern and method,
together with that route's submatches, no matter how the flags start out. -/
theorem scanRoutes_first_hit (path method : String) (r0 : Route) (ms0 : List String)
    (hm : r0.re.findStringSubmatch path = some ms0) (hmeth : r0.method = method) :
    ∀ (l1 : List Route) (l2 : List Route) (fp fm : Bool),
      (∀ r ∈ l1, ¬ bothMatch r method path) →
      scanRoutes (l1 ++ r0 :: l2) path method fp fm = (true, true, some (r0, ms0)) := by
  intro l1
  induction l1 with
  | nil =>
    intro l2 fp fm _
    simp [scanRoutes, hm, hmeth]
  | cons r rest ih =>
    intro l2 fp fm h
    have hrest : ∀ q ∈ rest, ¬ bothMatch q method path := fun q hq => h q (by simp [hq])
    rcases hf : r.re.findStringSubmatch path with _ | ms
    · simp only [List.cons_append, scanRoutes, hf]
      exact ih l2 fp fm hrest
    · have hne : r.method ≠ method := by
        intro he
        exact h r (by simp) ⟨by simp [hf], he⟩
      have hbeq : (r.method == method) = false := by simp [hne]
      simp only [List.cons_append, scanRoutes, hf, hbeq, Bool.true_and, if_false,
        Bool.false_eq_true]
      exact ih l2 true false hrest

/-! ## Lemmas about process -/

/-- No pattern matches: `process` responds 404 and increments the 404 bucket. -/
theorem process_notfound (routes : List Route) (method path : String) (stat : Stat)
    (w : Response) (d : Nat) (h : ∀ r ∈ routes, r.re.findStringSubmatch path = none) :
    process routes method path stat w d =
      .ok (stat.Increment 404 d, httpError w "Not Found" 404) := by
  have hany : anyPattern routes path = false := by
    simp only [anyPattern, List.any_eq_false]
    intro r hr
    simp [h r hr]
  have hnb : ∀ r ∈ routes, ¬ bothMatch r method path := by
    intro r hr hb
    rcases hb with ⟨h1, _⟩
    rw [h r hr] at h1
    simp at h1
  unfold process
  rw [scanRoutes_no_both path method routes false false hnb, hany]
  simp

/-- Some pattern matches but no route matches both pattern and method:
`process` responds 405. -/
theorem process_method_not_allowed (routes : List Route) (method path : String)
    (stat : Stat) (w : Response) (d : Nat)
    (hnb : ∀ r ∈ routes, ¬ bothMatch r method path)
    (hany : anyPattern routes path = true) :
    process routes method path stat w d =
      .ok (stat.Increment 405 d, httpError w "Method not allowed" 405) := by
  unfold process
  rw [scanRoutes_no_both path method routes false false hnb, hany]
  simp

/-- Some route matches both pattern and method: `process` runs the first such
route's handler on a context carrying that route's submatches.  A normal
return is counted as 200 with the handler's response; a handler panic unwinds
out of `process` before the final `Increment`. -/
theorem process_dispatch (l1 : List Route) (r0 : Route) (l2 : List Route)
    (method path : String) (ms0 : List String) (stat : Stat) (w : Response) (d : Nat)
    (hpre : ∀ r ∈ l1, ¬ bothMatch r method path)
    (hm : r0.re.findStringSubmatch path = some ms0) (hmeth : r0.method = method) :
    process (l1 ++ r0 :: l2) method path stat w d =
      match r0.handler { Method := method, Path := path, Matches := ms0 } w with
      | .ok w2 => .ok (stat.Increment 200 d, w2)
      | .panicked e w2 => .error (e, w2) := by
  unfold process
  rw [scanRoutes_first_hit path method r0 ms0 hm hmeth l1 l2 false false hpre]
  simp

/-! ## The claims -/

/-- C7: `Stat.Increment statusCode duration` increases `TotalReqs` by one and
the bucket keyed by the decimal string of `statusCode` by one, and changes
nothing else: every other bucket, the server start timestamp and the
per-minute/hour/day/week fields are untouched — and the windowed fields are
zero from construction and never populated by any operation. -/
theorem claim_C7_increment_frame (s : Stat) (statusCode : Nat) (d : Nat) :
    (s.Increment statusCode d).TotalReqs = s.TotalReqs + 1 ∧
    (s.Increment statusCode d).Reqs (toString statusCode) =
      s.Reqs (toString statusCode) + 1 ∧
    (∀ k, k ≠ toString statusCode → (s.Increment statusCode d).Reqs k = s.Reqs k) ∧
    (s.Increment statusCode d).ServerStartedAt = s.ServerStartedAt ∧
    (s.Increment statusCode d).LastMinReqs = s.LastMinReqs ∧
    (s.Increment statusCode d).LastHourReqs = s.LastHourReqs ∧
    (s.Increment statusCode d).LastDayReqs = s.LastDayReqs ∧
    (s.Increment statusCode d).LastWeekReqs = s.LastWeekReqs ∧
    (∀ now, (NewStat now).LastMinReqs = 0 ∧ (NewStat now).LastHourReqs = 0 ∧
      (NewStat now).LastDayReqs = 0 ∧ (NewStat now).LastWeekReqs = 0) := by
  refine ⟨rfl, ?_, ?_, rfl, rfl, rfl, rfl, rfl, fun _ => ⟨rfl, rfl, rfl, rfl⟩⟩
  · simp [Stat.Increment]
  · intro k hk
    simp [Stat.Increment, hk]

/-- Witness for C7 at a concrete stat, status code and foreign bucket. -/
theorem claim_C7_witness :
    ("200" : String) ≠ toString (404 : Nat) ∧
    ((NewStat 0).Increment 404 5).Reqs "200" = (NewStat 0).Reqs "200" ∧
    ((NewStat 0).Increment 404 5).TotalReqs = (NewStat 0).TotalReqs + 1 ∧
    ((NewStat 0).Increment 404 5).Reqs (toString (404 : Nat)) =
      (NewStat 0).Reqs (toString (404 : Nat)) + 1 :=
  ⟨by decide, (claim_C7_increment_frame (NewStat 0) 404 5).2.2.1 "200" (by decide),
   (claim_C7_increment_frame (NewStat 0) 404 5).1,
   (claim_C7_increment_frame (NewStat 0) 404 5).2.1⟩

/-- C4: a request whose path matches no registered route's pattern gets the
404 response, and the stat total and the "404" bucket each grow by exactly
one. -/
theorem claim_C4_notfound (routes : List Route) (method path : String)
    (stat : Stat) (w : Response) (d : Nat)
    (h : ∀ r ∈ routes, r.re.findStringSubmatch path = none) :
    Process routes method path stat w d =
      (stat.Increment 404 d, httpError w "Not Found" 404) ∧
    (Process routes method path stat w d).1.TotalReqs = stat.TotalReqs + 1 ∧
    (Process routes method path stat w d).1.Reqs "404" = stat.Reqs "404" + 1 := by
  have hP : Process routes method path stat w d =
      (stat.Increment 404 d, httpError w "Not Found" 404) := by
    unfold Process
    rw [process_notfound routes method path stat w d h]
  refine ⟨hP, ?_, ?_⟩ <;> rw [hP]
  · rfl
  · have h404 : toString (404 : Nat) = "404" := by decide
    simp [Stat.Increment, h404]

/-- Witness for C4: a GET to `/nope` against a table holding only
`GET /hello`. -/
theorem claim_C4_witness :
    (∀ r ∈ [routeHello], r.re.findStringSubmatch "/nope" = none) ∧
    Process [routeHello] "GET" "/nope" (NewStat 3) [] 2 =
      ((NewStat 3).Increment 404 2, httpError [] "Not Found" 404) ∧
    (Process [routeHello] "GET" "/nope" (NewStat 3) [] 2).1.Reqs "404" =
      (NewStat 3).Reqs "404" + 1 := by
  have hnone : ∀ r ∈ [routeHello], r.re.findStringSubmatch "/nope" = none := by
    intro r hr
    rw [List.mem_singleton] at hr
    subst hr
    decide
  have h := claim_C4_notfound [routeHello] "GET" "/nope" (NewStat 3) [] 2 hnone
  exact ⟨hnone, h.1, h.2.2⟩

/-- C1 counterexample: with route A = `GET /x` registered before route B =
`POST /x`, a POST request to `/x` is NOT answered 405 — route B's handler runs
(the response body is "B"), the "405" bucket stays 0, the "200" bucket becomes
1, and the response status is 200.  The scan does not stop at the first
pattern-matching route. -/
theorem claim_C1_counterexample :
    (Process [routeXGetA, routeXPostB] "POST" "/x" (NewStat 0) [] 7).2 =
      [RespEvent.body "B"] ∧
    (Process [routeXGetA, routeXPostB] "POST" "/x" (NewStat 0) [] 7).1.Reqs "405" = 0 ∧
    (Process [routeXGetA, routeXPostB] "POST" "/x" (NewStat 0) [] 7).1.Reqs "200" = 1 ∧
    statusOf (Process [routeXGetA, routeXPostB] "POST" "/x" (NewStat 0) [] 7).2 = 200 := by
  decide

/-- C1 (amended): the scan continues past a pattern-matching route whose
method differs; with A = `GET /x` registered before B = `POST /x`, a POST to
`/x` is dispatched to B's handler and the request is recorded as 200. -/
theorem claim_C1_amended (hA hB : Handler) (rA rB : Route) (stat : Stat)
    (w w2 : Response) (d : Nat)
    (hrA : NewRoute "/x" "GET" hA = some rA)
    (hrB : NewRoute "/x" "POST" hB = some rB)
    (hh : hB { Method := "POST", Path := "/x", Matches := ["/x"] } w = .ok w2) :
    Process [rA, rB] "POST" "/x" stat w d = (stat.Increment 200 d, w2) := by
  rw [show NewRoute "/x" "GET" hA =
      some ⟨⟨true, true, .seq (.lit '/') (.seq (.lit 'x') .emp)⟩, "GET", hA⟩ from rfl,
    Option.some.injEq] at hrA
  rw [show NewRoute "/x" "POST" hB =
      some ⟨⟨true, true, .seq (.lit '/') (.seq (.lit 'x') .emp)⟩, "POST", hB⟩ from rfl,
    Option.some.injEq] at hrB
  subst hrA
  subst hrB
  have hpre : ∀ r ∈ [(⟨⟨true, true, .seq (.lit '/') (.seq (.lit 'x') .emp)⟩, "GET", hA⟩ :
      Route)], ¬ bothMatch r "POST" "/x" := by
    intro r hr
    rw [List.mem_singleton] at hr
    subst hr
    intro hb
    have h2 : ("GET" : String) = "POST" := hb.2
    exact absurd h2 (by decide)
  have hd := process_dispatch
    [(⟨⟨true, true, .seq (.lit '/') (.seq (.lit 'x') .emp)⟩, "GET", hA⟩ : Route)]
    (⟨⟨true, true, .seq (.lit '/') (.seq (.lit 'x') .emp)⟩, "POST", hB⟩ : Route)
    [] "POST" "/x" ["/x"] stat w d hpre (by rfl) rfl
  unfold Process
  simp only [List.singleton_append] at hd
  rw [hd]
  simp only [hh]

/-- Witness for the amended C1 at the concrete fixture routes. -/
theorem claim_C1_witness :
    Process [routeXGetA, routeXPostB] "POST" "/x" (NewStat 1) [] 4 =
      ((NewStat 1).Increment 200 4, [RespEvent.body "B"]) :=
  claim_C1_amended (writeBody "A") (writeBody "B") routeXGetA routeXPostB
    (NewStat 1) [] [RespEvent.body "B"] 4 rfl rfl rfl

/-- C5 counterexample: with two registered routes that both have pattern `/x`
and method GET (handlers writing "A" resp. "B"), the later route satisfies
"path matches P's pattern and method equals P's method", yet the request is
dispatched to the FIRST such route — the response body is "A", so it is not
dispatched to every such P's handler. -/
theorem claim_C5_counterexample :
    (routeXGetB.re.findStringSubmatch "/x").isSome = true ∧
    routeXGetB.method = "GET" ∧
    (Process [routeXGetA, routeXGetB] "GET" "/x" (NewStat 0) [] 9).2 =
      [RespEvent.body "A"] := by
  decide

/-- C5 (amended): a request is dispatched to the first registered route whose
pattern matches the path and whose method equals the request method, with the
context's `Matches` populated with that pattern match (whole match plus
capture groups), and counted as 200 on normal return. -/
theorem claim_C5_amended (l1 l2 : List Route) (r0 : Route) (method path : String)
    (ms0 : List String) (stat : Stat) (w w2 : Response) (d : Nat)
    (hpre : ∀ r ∈ l1, ¬ bothMatch r method path)
    (hm : r0.re.findStringSubmatch path = some ms0)
    (hmeth : r0.method = method)
    (hh : r0.handler { Method := method, Path := path, Matches := ms0 } w = .ok w2) :
    Process (l1 ++ r0 :: l2) method path stat w d = (stat.Increment 200 d, w2) := by
  have hd := process_dispatch l1 r0 l2 method path ms0 stat w d hpre hm hmeth
  unfold Process
  rw [hd, hh]

/-- Witness for the amended C5: quoting the spec's example, pattern
`/say-hi/([a-zA-Z]+)` against path `/say-hi/Bob` captures "Bob", and the
`sayHi` handler receives it in `Matches` and writes it. -/
theorem claim_C5_witness :
    routeSayHi.re.findStringSubmatch "/say-hi/Bob" = some ["/say-hi/Bob", "Bob"] ∧
    Process [routeSayHi] "GET" "/say-hi/Bob" (NewStat 0) [] 6 =
      ((NewStat 0).Increment 200 6, [RespEvent.body "Bob"]) := by
  refine ⟨by decide, ?_⟩
  exact claim_C5_amended [] [] routeSayHi "GET" "/say-hi/Bob" ["/say-hi/Bob", "Bob"]
    (NewStat 0) [] [RespEvent.body "Bob"] 6 (by intro r hr; simp at hr) (by decide) rfl rfl

/-- C9: for a dispatched request whose handler returns normally, the status
recorded by the stat counter is always 200, regardless of the response the
handler wrote — the dispatcher never inspects the handler's actual response
status. -/
theorem claim_C9_records_200 (l1 l2 : List Route) (r0 : Route) (method path : String)
    (ms0 : List String) (stat : Stat) (w w2 : Response) (d : Nat)
    (hpre : ∀ r ∈ l1, ¬ bothMatch r method path)
    (hm : r0.re.findStringSubmatch path = some ms0)
    (hmeth : r0.method = method)
    (hh : r0.handler { Method := method, Path := path, Matches := ms0 } w = .ok w2) :
    (Process (l1 ++ r0 :: l2) method path stat w d).1 = stat.Increment 200 d := by
  have hd := process_dispatch l1 r0 l2 method path ms0 stat w d hpre hm hmeth
  unfold Process
  rw [hd, hh]

/-- Witness for C9: a handler that writes an explicit 418 status; the client
response status is 418, yet the stats record the request under "200". -/
theorem claim_C9_witness :
    (Process [routeTea] "GET" "/tea" (NewStat 0) [] 3).1 = (NewStat 0).Increment 200 3 ∧
    statusOf (Process [routeTea] "GET" "/tea" (NewStat 0) [] 3).2 = 418 ∧
    (Process [routeTea] "GET" "/tea" (NewStat 0) [] 3).1.Reqs "418" = 0 ∧
    (Process [routeTea] "GET" "/tea" (NewStat 0) [] 3).1.Reqs "200" = 1 := by
  refine ⟨claim_C9_records_200 [] [] routeTea "GET" "/tea" ["/tea"] (NewStat 0) []
    [RespEvent.header 418, RespEvent.body "tea"] 3 (by intro r hr; simp at hr)
    (by decide) rfl rfl, by decide, by decide, by decide⟩

/-- C10: when a request is dispatched through a route built by `NewRoute`, the
`Matches` slice passed to the handler is non-empty, holds the entire request
path at index 0, and has length one plus the number of capturing groups of the
route's pattern. -/
theorem claim_C10_matches_shape (p m : String) (h : Handler) (r0 : Route)
    (l1 l2 : List Route) (path : String) (ms0 : List String) (stat : Stat)
    (w : Response) (d : Nat)
    (hr : NewRoute p m h = some r0)
    (hpre : ∀ r ∈ l1, ¬ bothMatch r m path)
    (hm : r0.re.findStringSubmatch path = some ms0)
    (hmeth : r0.method = m) :
    ms0 ≠ [] ∧ ms0.head? = some path ∧ ms0.length = 1 + r0.re.ast.countGroups ∧
    process (l1 ++ r0 :: l2) m path stat w d =
      match r0.handler { Method := m, Path := path, Matches := ms0 } w with
      | .ok w2 => .ok (stat.Increment 200 d, w2)
      | .panicked e w2 => .error (e, w2) := by
  obtain ⟨hs, he, _, _⟩ := NewRoute_fields p m h r0 hr
  obtain ⟨hhead, hlen⟩ := findStringSubmatch_anchored r0.re hs he path ms0 hm
  refine ⟨?_, hhead, hlen, process_dispatch l1 r0 l2 m path ms0 stat w d hpre hm hmeth⟩
  intro hnil
  rw [hnil] at hhead
  simp at hhead

/-- Witness for C10 at the README's `sayHi` route and the path `/say-hi/Ann`:
`Matches` is `["/say-hi/Ann", "Ann"]` — whole path first, one capture group. -/
theorem claim_C10_witness :
    (["/say-hi/Ann", "Ann"] : List String) ≠ [] ∧
    (["/say-hi/Ann", "Ann"] : List String).head? = some "/say-hi/Ann" ∧
    (["/say-hi/Ann", "Ann"] : List String).length = 1 + routeSayHi.re.ast.countGroups ∧
    process [routeSayHi] "GET" "/say-hi/Ann" (NewStat 0) [] 8 =
      match routeSayHi.handler
          { Method := "GET", Path := "/say-hi/Ann", Matches := ["/say-hi/Ann", "Ann"] } []
          with
      | .ok w2 => .ok ((NewStat 0).Increment 200 8, w2)
      | .panicked e w2 => .error (e, w2) :=
  claim_C10_matches_shape "/say-hi/([a-zA-Z]+)" "GET" sayHi routeSayHi [] []
    "/say-hi/Ann" ["/say-hi/Ann", "Ann"] (NewStat 0) [] 8 rfl
    (by intro r hr; simp at hr) (by decide) rfl

/-- C2 counterexample: a dispatched handler that writes an explicit 503 status.
The response's final status code is 503, but the single `Increment` is made
with 200 — so the increment is NOT made "with the final status code of the
response". -/
theorem claim_C2_counterexample :
    statusOf (Process [routeSt] "GET" "/st" (NewStat 0) [] 2).2 = 503 ∧
    (Process [routeSt] "GET" "/st" (NewStat 0) [] 2).1.Reqs "503" = 0 ∧
    (Process [routeSt] "GET" "/st" (NewStat 0) [] 2).1.Reqs "200" = 1 ∧
    (Process [routeSt] "GET" "/st" (NewStat 0) [] 2).1.TotalReqs = 1 := by
  decide

/-- C2 (amended): every request through `Process` — handler success, 404, 405
or recovered panic — performs exactly one `Increment`, with the
dispatcher-determined status code (200 for any dispatched non-panicking
handler, 404, 405, or 500 on panic), which need not equal the status the
handler wrote to the response; the total request count grows by exactly
one. -/
theorem claim_C2_amended (routes : List Route) (method path : String) (stat : Stat)
    (w : Response) (d : Nat) :
    ∃ sc, (sc = 200 ∨ sc = 404 ∨ sc = 405 ∨ sc = 500) ∧
      (Process routes method path stat w d).1 = stat.Increment sc d ∧
      (Process routes method path stat w d).1.TotalReqs = stat.TotalReqs + 1 := by
  unfold Process process
  rcases hscan : scanRoutes routes path method false false with ⟨fp, fm, hit⟩
  cases fp with
  | false =>
    exact ⟨404, by simp, by simp, by simp [Stat.Increment]⟩
  | true =>
    cases fm with
    | false =>
      exact ⟨405, by simp, by simp, by simp [Stat.Increment]⟩
    | true =>
      cases hit with
      | none =>
        exact ⟨500, by simp, by simp, by simp [Stat.Increment]⟩
      | some rm =>
        rcases rm with ⟨r0, ms0⟩
        rcases hres : r0.handler { Method := method, Path := path, Matches := ms0 } w
          with ⟨w2⟩ | ⟨e, w2⟩
        · exact ⟨200, by simp, by simp [hres], by simp [hres, Stat.Increment]⟩
        · exact ⟨500, by simp, by simp [hres], by simp [hres, Stat.Increment]⟩

/-- C3: any panic during request processing (handler execution, template
rendering or JSON serialization, all of which panic on failure) is caught at
the dispatch boundary: `Process` returns normally, the client response gains
the generic body via `http.Error(w, "Server Error", 500)`, and the request is
counted once under "500". -/
theorem claim_C3_panic_recovered (routes : List Route) (method path : String)
    (stat : Stat) (w : Response) (d : Nat) (e : String) (w1 : Response)
    (hp : process routes method path stat w d = .error (e, w1)) :
    Process routes method path stat w d =
      (stat.Increment 500 d, httpError w1 "Server Error" 500) ∧
    (Process routes method path stat w d).1.Reqs "500" = stat.Reqs "500" + 1 ∧
    (Process routes method path stat w d).1.TotalReqs = stat.TotalReqs + 1 := by
  have hP : Process routes method path stat w d =
      (stat.Increment 500 d, httpError w1 "Server Error" 500) := by
    unfold Process
    rw [hp]
  refine ⟨hP, ?_, ?_⟩ <;> rw [hP]
  · have h500 : toString (500 : Nat) = "500" := by decide
    simp [Stat.Increment, h500]
  · rfl

/-- Witness for C3: a handler whose template render fails (missing file) and
panics; the panic is recovered, the client gets the generic 500 error, and the
"500" bucket is incremented. -/
theorem claim_C3_witness :
    process [routeBoom] "GET" "/boom" (NewStat 0) [] 5 =
      .error ("[Error (where: fromfile)] open www/templates/say-hi.html: no such file",
        []) ∧
    Process [routeBoom] "GET" "/boom" (NewStat 0) [] 5 =
      ((NewStat 0).Increment 500 5, httpError [] "Server Error" 500) ∧
    (Process [routeBoom] "GET" "/boom" (NewStat 0) [] 5).1.Reqs "500" = 1 := by
  have hp : process [routeBoom] "GET" "/boom" (NewStat 0) [] 5 =
      .error ("[Error (where: fromfile)] open www/templates/say-hi.html: no such file",
        []) := by
    rfl
  have h := claim_C3_panic_recovered [routeBoom] "GET" "/boom" (NewStat 0) [] 5 _ _ hp
  refine ⟨hp, h.1, ?_⟩
  rw [h.1]
  decide

/-- C6: in debug mode every render loads and compiles the template from
storage (one load per call, the cache neither read nor written); in non-debug
mode a first render of an uncached path loads once and caches, and every later
render of that path uses the cached template with zero storage accesses — so
rendering the same path twice with the same data yields identical output while
loading from storage only once. -/
theorem claim_C6_render_cache {Data : Type}
    (fromFile fromFile2 : String → Except String (Template Data))
    (cache : TemplateCache Data) (fp : String) (data data2 : Data)
    (t : Template Data) (out : String)
    (hmiss : List.lookup fp cache = none)
    (hload : fromFile fp = .ok t)
    (hexec : t data = .ok out) :
    renderTemplate false fromFile cache fp data = (.ok out, (fp, t) :: cache, 1) ∧
    renderTemplate false fromFile2 ((fp, t) :: cache) fp data2 =
      (t data2, (fp, t) :: cache, 0) ∧
    renderTemplate false fromFile2 ((fp, t) :: cache) fp data =
      (.ok out, (fp, t) :: cache, 0) ∧
    (∀ (fs : String → Except String (Template Data)) (c : TemplateCache Data) (dd : Data),
      renderTemplate true fs c fp dd = ((fs fp).bind (fun tt => tt dd), c, 1)) := by
  refine ⟨?_, ?_, ?_, ?_⟩
  · simp [renderTemplate, hmiss, hload, hexec]
  · simp [renderTemplate, List.lookup]
  · simp [renderTemplate, List.lookup, hexec]
  · intro fs c dd
    rcases hfs : fs fp with e | tt <;> simp [renderTemplate, hfs, Except.bind]

/-- Witness for C6 at a concrete template and storage: the first non-debug
render loads once and caches; the second render of the same path returns the
identical output with zero loads even against a storage where every load
fails; a debug render always loads. -/
theorem claim_C6_witness :
    renderTemplate false (fun _ => .ok tplHi) ([] : TemplateCache TData)
        "www/templates/hi.html" [] =
      (.ok "<h1>hi</h1>", [("www/templates/hi.html", tplHi)], 1) ∧
    renderTemplate false badStorage [("www/templates/hi.html", tplHi)]
        "www/templates/hi.html" [] =
      (.ok "<h1>hi</h1>", [("www/templates/hi.html", tplHi)], 0) ∧
    renderTemplate true (fun _ => .ok tplHi) ([] : TemplateCache TData)
        "www/templates/hi.html" [] =
      (.ok "<h1>hi</h1>", [], 1) := by
  have h := claim_C6_render_cache (fun _ => .ok tplHi) badStorage []
    "www/templates/hi.html" [] [] tplHi "<h1>hi</h1>" rfl rfl rfl
  exact ⟨h.1, h.2.2.1, h.2.2.2 (fun _ => .ok tplHi) [] []⟩

/-- C8: `NewRoute` compiles `"^" ++ pattern ++ "$"`, so a registered route's
regexp is anchored at both ends and matches a request path only as the entire
path (a successful match's entry 0 is the whole path, never a proper
substring); a pattern whose compilation fails aborts registration and produces
no route. -/
theorem claim_C8_anchored_compile :
    (∀ (p m : String) (h : Handler) (r : Route), NewRoute p m h = some r →
      r.re.anchoredStart = true ∧ r.re.anchoredEnd = true ∧
      ∀ (path : String) (ms : List String),
        r.re.findStringSubmatch path = some ms → ms.head? = some path) ∧
    (∀ (p m : String) (h : Handler), regexpCompile ("^" ++ p ++ "$") = none →
      NewRoute p m h = none) := by
  constructor
  · intro p m h r hr
    obtain ⟨hs, he, _, _⟩ := NewRoute_fields p m h r hr
    exact ⟨hs, he, fun path ms hm => (findStringSubmatch_anchored r.re hs he path ms hm).1⟩
  · intro p m h hc
    unfold NewRoute
    rw [hc]

/-- Witness for C8: the route for `/x` matches `/x` as the whole path and does
not match `/x/y` even though `/x` occurs as a proper prefix; the ill-formed
pattern `(` fails to compile and produces no route. -/
theorem claim_C8_witness :
    NewRoute "/x" "GET" (writeBody "A") = some routeXGetA ∧
    routeXGetA.re.findStringSubmatch "/x" = some ["/x"] ∧
    (["/x"] : List String).head? = some "/x" ∧
    routeXGetA.re.findStringSubmatch "/x/y" = none ∧
    regexpCompile ("^" ++ "(" ++ "$") = none ∧
    NewRoute "(" "GET" (writeBody "A") = none := by
  refine ⟨rfl, by decide, ?_, by decide, rfl, ?_⟩
  · exact (claim_C8_anchored_compile.1 "/x" "GET" (writeBody "A") routeXGetA rfl).2.2
      "/x" ["/x"] (by decide)
  · exact claim_C8_anchored_compile.2 "(" "GET" (writeBody "A") rfl
